import Mathlib

/-!
Verification of the ycomp kinship-comparison engine.

This file is a shallow embedding of the core computation of the ycomp
repository (files src/ycomp/db.py, src/ycomp/snp_cmd.py and
src/ycomp/str_cmd.py).  The command modules import both common.py and db.py,
with db.py imported second, so the effective tree and lineage helpers are
the ones of db.py; those are the definitions embedded here.

Modelling conventions:
* pandas float cells are modelled as Option Rat, with none playing the role
  of NaN (missing value).  IEEE arithmetic on the values actually stored
  (0.0, 1.0 and NaN) is exact, and NaN propagates through 1 - x and x * y,
  which is what the Option-valued operations below implement.
* a pandas DataFrame row lookup by index label (df.loc) is modelled as a
  List.find? on the row list; a missing label raises KeyError.
* Python exceptions are modelled with the Except monad: any raised error
  aborts the run, and a run that raises produces no output rows.
* the unbounded Python while loop of get_haplogroup_lineage is modelled
  with an explicit fuel argument; running out of fuel is distinguishable
  from every result the Python code can return, so a value of the fuelled
  function that is not fuelExhausted for some fuel is exactly a value the
  Python loop reaches in finitely many steps.
-/

/-! ## Tri-state SNP call algebra (db.py, lines 20-41)

The call domain is float16 with true = 1.0, false = 0.0, unknown = NaN
(kits_snps_df.astype of snp_cmd.py line 305).  The pandas Series operations
act pointwise, so the scalar semantics is embedded.
-/

/-- db.py line 20: float_not(a) = 1 - a (NaN propagates). -/
def float_not (a : Option ℚ) : Option ℚ :=
  a.map (fun x => 1 - x)

/-- db.py line 24: float_and(a, b) = a * b (NaN propagates through IEEE mul
for the stored values). -/
def float_and (a b : Option ℚ) : Option ℚ :=
  match a, b with
  | some x, some y => some (x * y)
  | _, _ => none

/-- pandas Series.fillna: replace NaN by the given value. -/
def fillna (a : Option ℚ) (v : ℚ) : Option ℚ :=
  some (a.getD v)

/-- db.py line 28: float_or(a, b) =
float_not(float_and(float_not(a.fillna(0)), float_not(b.fillna(0)))). -/
def float_or (a b : Option ℚ) : Option ℚ :=
  float_not (float_and (float_not (fillna a 0)) (float_not (fillna b 0)))

/-- db.py line 32: float_xor(a, b) = float_and(float_or(a, b),
float_not(float_and(a, b))). -/
def float_xor (a b : Option ℚ) : Option ℚ :=
  float_and (float_or a b) (float_not (float_and a b))

/-- db.py line 36: float_isna(a) = a.isna().astype(float16): 1 when the
cell is NaN, else 0 (never NaN itself). -/
def float_isna (a : Option ℚ) : Option ℚ :=
  match a with
  | none => some 1
  | some _ => some 0

/-- db.py line 40: float_notna(a) = a.notna().astype(float16). -/
def float_notna (a : Option ℚ) : Option ℚ :=
  match a with
  | none => some 0
  | some _ => some 1

/-! ## Haplogroup tree model (db.py, lines 71-115) -/

/-- One row of the tree table (keyed by haplogroup id).  The parent cell is
nullable; TMRCA may be missing (NaN compares false against the age cutoff).
Columns of snp_cmd.get_relevant_snps. -/
structure TreeRow where
  id : String
  parent : Option String
  tmrca : Option Int
  primary_snps : List String
  extra_snps : List String
deriving DecidableEq

/-- The tree table; merge_db deduplicates the index, so lookup by label is
find?. -/
abbrev TreeTable := List TreeRow

/-- tree_df.loc of db.py line 77: none models KeyError (id absent),
some none a present row whose Parent Haplogroup cell is NA. -/
def lookupTree (tree : TreeTable) (h : String) : Option (Option String) :=
  (List.find? (fun r => r.id == h) tree).map (fun r => r.parent)

/-- Python-level failures that abort an analysis run.  keyError carries the
missing index label (pandas KeyError names the key); attributeError is the
crash of calling .loc on None; nameError is the unbound relevant_snps of
snp_cmd.py line 308; exitError is the secho + Exit(1) path; fuelExhausted
marks a while loop that has not finished within the given fuel. -/
inductive PyError where
  | keyError (key : String)
  | attributeError
  | nameError
  | exitError
  | fuelExhausted
deriving DecidableEq

/-- db.py lines 71-81, get_haplogroup_lineage(tree_df, haplogroup): walk
parent pointers while the current id is not NA, appending the visited id
before each lookup; a KeyError (id absent from the table) breaks the loop
after the append.  tree? is the Option-valued tree_df handed in by the
analyze commands: when it is None, the first tree_df.loc call raises
AttributeError (None has no attribute loc).  The fuel counts loop
iterations; the Python loop has no bound of its own. -/
def get_haplogroup_lineage (tree? : Option TreeTable) :
    Nat → Option String → Except PyError (List String)
  | _, none => Except.ok []
  | 0, some _ => Except.error PyError.fuelExhausted
  | fuel + 1, some h =>
    match tree? with
    | none => Except.error PyError.attributeError
    | some tree =>
      match lookupTree tree h with
      | none => Except.ok [h]
      | some p => (get_haplogroup_lineage tree? fuel p).map (fun l => h :: l)

/-- The walk of get_haplogroup_lineage from h finishes in finitely many
steps (what the unbounded Python loop does exactly when it terminates). -/
def lineage_terminates (tree : TreeTable) (h : String) : Prop :=
  ∃ fuel l, get_haplogroup_lineage (some tree) fuel (some h) = Except.ok l

/-- db.py lines 84-92, get_common_lineage(a_lineage, b_lineage): zip the two
reversed (root-first) lineages, take while the components agree, and keep
the first component of each pair.  The result is therefore ordered from the
root towards the leaves. -/
def get_common_lineage (a_lineage b_lineage : List String) : List String :=
  ((a_lineage.reverse.zip b_lineage.reverse).takeWhile
    (fun p => p.1 == p.2)).map (fun p => p.1)

/-- The absolute depth difference of db.py line 112:
abs(a_lineage_pos - b_lineage_pos), with each position the lineage length
minus the common-lineage length (db.py lines 105-106). -/
def lineage_pos_diff (a_lineage b_lineage : List String) : Int :=
  ((((a_lineage.length : Int) - (get_common_lineage a_lineage b_lineage).length)
    - ((b_lineage.length : Int) - (get_common_lineage a_lineage b_lineage).length)).natAbs : Int)

/-- db.py lines 95-115, kit_matches_lineage: compute the kit lineage, the
common lineage with the reference lineage, and each depth below the common
ancestor; reject when the haplogroup filter is given and absent from the
kit lineage, or when the depth difference exceeds haplogroup_max_diff. -/
def kit_matches_lineage (tree? : Option TreeTable) (a_lineage : List String)
    (b_hg : Option String) (haplogroup : Option String)
    (haplogroup_max_diff : Option Int) (fuel : Nat) : Except PyError Bool := do
  let b_lineage ← get_haplogroup_lineage tree? fuel b_hg
  let common_lineage := get_common_lineage a_lineage b_lineage
  let a_lineage_pos : Int := (a_lineage.length : Int) - common_lineage.length
  let b_lineage_pos : Int := (b_lineage.length : Int) - common_lineage.length
  if (match haplogroup with
      | some hg => !(b_lineage.contains hg)
      | none => false) then
    pure false
  else if (match haplogroup_max_diff with
      | some d => decide (((a_lineage_pos - b_lineage_pos).natAbs : Int) > d)
      | none => false) then
    pure false
  else
    pure true

/-- DataFrame.apply of a row predicate followed by boolean-mask filtering
(snp_cmd.py line 294, str_cmd.py line 229): the predicate runs over every
row in order, and any exception it raises aborts the run. -/
def filterE {ε α : Type} (p : α → Except ε Bool) : List α → Except ε (List α)
  | [] => Except.ok []
  | x :: xs => do
    let b ← p x
    let rest ← filterE p xs
    pure (if b then x :: rest else rest)

/-- snp_cmd.py lines 22-26, get_relevant_snps: SNP names introduced by tree
rows whose TMRCA is at most max_age (an NA TMRCA compares false); only
membership in the resulting set is ever used. -/
def get_relevant_snps (tree : TreeTable) (max_age : Int) : List String :=
  let filtered := tree.filter (fun r =>
    match r.tmrca with
    | some t => decide (t ≤ max_age)
    | none => false)
  (filtered.map (fun r => r.primary_snps)).flatten
    ++ (filtered.map (fun r => r.extra_snps)).flatten

/-! ## STR locus alignment (str_cmd.py, lines 246-288)

get_diff(a, b) compares one locus of the reference kit against the same
locus of a candidate kit.  Both values are ordered lists of repeat counts
(or None for a no-call).  distinct_combinations(enumerate(a), k) yields the
order-preserving k-element combinations of the enumerated list; since the
enumerated pairs are pairwise distinct no deduplication happens, so it is
exactly itertools.combinations.
-/

/-- str_cmd.py lines 272-276, get_val_diff: 1 when either paired value is
0, else the absolute difference. -/
def get_val_diff (a b : Int) : Nat :=
  if a = 0 ∨ b = 0 then 1 else (a - b).natAbs

/-- str_cmd.py lines 255-260 and 263-268 (one loop body of get_comb_diff):
the term appended for an unpaired position i of list l.  x starts at 1000
and is lowered to the absolute difference against the left neighbour when
i > 0 and against the right neighbour when i < len(l) - 1; the appended
term is 1 + x. -/
def leftover_penalty (l : List Int) (i : Nat) : Nat :=
  let x := 1000
  let x := if 0 < i then min x ((l.getD i 0) - (l.getD (i - 1) 0)).natAbs else x
  let x := if i < l.length - 1 then
    min x ((l.getD i 0) - (l.getD (i + 1) 0)).natAbs else x
  1 + x

/-- Modelled from the spec (section 4.3, step 3), for comparison with
leftover_penalty: the minimum of the absolute differences between the value
at position i and its existing neighbours within its own list; none when
the position has no neighbour at all. -/
def spec_neighbor_min (l : List Int) (i : Nat) : Option Nat :=
  match (if 0 < i then some ((l.getD i 0) - (l.getD (i - 1) 0)).natAbs
         else none),
        (if i < l.length - 1 then some ((l.getD i 0) - (l.getD (i + 1) 0)).natAbs
         else none) with
  | some dl, some dr => some (min dl dr)
  | some dl, none => some dl
  | none, some dr => some dr
  | none, none => none

/-- set(range(n)) - set(used) of str_cmd.py lines 254 and 262; CPython
iterates a set of small nonnegative ints in increasing order. -/
def unpaired (n : Nat) (used : List Nat) : List Nat :=
  (List.range n).filter (fun i => !(used.contains i))

/-- str_cmd.py lines 251-270, get_comb_diff(diff) (a and b are the closed
over locus lists): the per-pair distances already stored in diff, followed
by a leftover penalty for each position of a absent from the first
components of diff, then one for each position of b absent from the second
components. -/
def get_comb_diff (a b : List Int) (diff : List (Nat × Nat × Nat)) : List Nat :=
  (diff.map (fun t => t.2.2))
    ++ (unpaired a.length (diff.map (fun t => t.1))).map (leftover_penalty a)
    ++ (unpaired b.length (diff.map (fun t => t.2.1))).map (leftover_penalty b)

/-- itertools-style order-preserving combinations of length k, in the
enumeration order of itertools.combinations (and of more_itertools
distinct_combinations on duplicate-free input). -/
def combinations : Nat → List α → List (List α)
  | 0, _ => [[]]
  | _ + 1, [] => []
  | k + 1, x :: xs =>
    ((combinations k xs).map (fun c => x :: c)) ++ combinations (k + 1) xs

/-- str_cmd.py line 281: the candidate pairing built from one combination
of enumerate(a) and one of enumerate(b):
[(i, j, get_val_diff(a_val, b_val)) for (i, a_val), (j, b_val) in zip(...)]. -/
def pair_diff (a_comb b_comb : List (Nat × Int)) : List (Nat × Nat × Nat) :=
  (a_comb.zip b_comb).map (fun p => (p.1.1, p.2.1, get_val_diff p.1.2 p.2.2))

/-- str_cmd.py lines 280-284: every candidate pairing, a_comb outer and
b_comb inner, with k = min(len(a), len(b)). -/
def all_pair_diffs (a b : List Int) : List (List (Nat × Nat × Nat)) :=
  let min_len := min a.length b.length
  ((combinations min_len a.enum).map (fun a_comb =>
    (combinations min_len b.enum).map (fun b_comb =>
      pair_diff a_comb b_comb))).flatten

/-- Python min(iterable, key = f): the first element with minimal key
(later elements replace the best only on a strictly smaller key). -/
def min_by_key (f : List (Nat × Nat × Nat) → Nat) :
    List (List (Nat × Nat × Nat)) → List (Nat × Nat × Nat)
  | [] => []
  | d :: ds => ds.foldl (fun best e => if f e < f best then e else best) d

/-- str_cmd.py lines 247-288, get_diff(a, b): [] when either locus value is
None; otherwise get_comb_diff of the candidate pairing minimizing
sum(get_comb_diff(diff)). -/
def get_diff (a? b? : Option (List Int)) : List Nat :=
  match a?, b? with
  | some a, some b =>
    get_comb_diff a b
      (min_by_key (fun diff => (get_comb_diff a b diff).sum) (all_pair_diffs a b))
  | _, _ => []

/-- Minimum of a list of naturals (the value Python min returns on a
nonempty list; the [] case never arises below). -/
def list_min : List Nat → Nat
  | [] => 0
  | x :: xs => xs.foldl min x

/-- The totals sum(get_comb_diff(diff)) over every candidate pairing, in
enumeration order. -/
def pair_totals (a b : List Int) : List Nat :=
  (all_pair_diffs a b).map (fun diff => (get_comb_diff a b diff).sum)

/-! ## SNP analysis pipeline (snp_cmd.py, analyze, lines 264-396) -/

/-- One row of the SNP kit table: the Kit Number index label, the four
metadata columns, and one tri-state call cell per SNP column (boolean
extension dtype: True / False / NA). -/
structure SnpKit where
  kit : String
  group : Option String
  ancestor : Option String
  country : Option String
  haplogroup : Option String
  calls : List (Option Bool)
deriving DecidableEq

/-- The SNP kit table: the SNP column names (columns 4 and onward) and the
rows; merge_db deduplicates the index. -/
structure KitsSnpTable where
  snpNames : List String
  rows : List SnpKit
deriving DecidableEq

/-- The optional canonical-name table: alternate name to standard name. -/
abbrev SnpsTable := List (String × String)

/-- kits_df.loc[kit] (snp_cmd.py line 291): row lookup by index label. -/
def find_kit_row_snp (rows : List SnpKit) (kit : String) : Option SnpKit :=
  List.find? (fun r => r.kit == kit) rows

/-- snp_cmd.py lines 315-319, get_standard_snp_name: map through the
canonical-name table, passing unmapped names through. -/
def get_standard_snp_name (snps : SnpsTable) (snp : String) : String :=
  match List.find? (fun p => p.1 == snp) snps with
  | some p => p.2
  | none => snp

/-- snp_cmd.py line 305 combined with lines 308-309, applied to one row:
astype(float16) turns True into 1.0, False into 0.0 and NA into NaN, and
the columns absent from relevant_snps are dropped. -/
def drop_irrelevant_cols (names : List String) (relevant : List String)
    (calls : List (Option Bool)) : List (String × Option ℚ) :=
  ((names.zip calls).filter (fun p => relevant.contains p.1)).map
    (fun p => (p.1, p.2.map (fun v => if v then (1 : ℚ) else 0)))

/-- One step of the OrderedDict loop of snp_cmd.py lines 321-326: when the
standard name already has a column, replace it in place by the float_or of
the old column and the new one; otherwise append the new column. -/
def merge_cols_upd (acc : List (String × Option ℚ)) (name : String)
    (v : Option ℚ) : List (String × Option ℚ) :=
  if acc.any (fun q => q.1 == name) then
    acc.map (fun q => if q.1 == name then (q.1, float_or q.2 v) else q)
  else
    acc ++ [(name, v)]

/-- snp_cmd.py lines 311-328, applied to one row: merge columns for
equivalent SNPs under the standard name (insertion order preserved); when
the canonical-name table is absent the columns pass through unchanged. -/
def merge_equivalent_cols (snps? : Option SnpsTable)
    (cols : List (String × Option ℚ)) : List (String × Option ℚ) :=
  match snps? with
  | none => cols
  | some snps =>
    cols.foldl
      (fun acc p => merge_cols_upd acc (get_standard_snp_name snps p.1) p.2) []

/-- pandas Series binary operations align on the column index; every row
built above carries the same column names in the same order, so the
alignment is positional. -/
def combine_cells (f : Option ℚ → Option ℚ → Option ℚ)
    (a b : List (String × Option ℚ)) : List (String × Option ℚ) :=
  (a.zip b).map (fun p => (p.1.1, f p.1.2 p.2.2))

/-- Series.sum skips NaN cells. -/
def cells_sum (cells : List (String × Option ℚ)) : ℚ :=
  (cells.filterMap (fun p => p.2)).sum

/-- Series.count: the number of non-NaN cells. -/
def cells_count (cells : List (String × Option ℚ)) : Nat :=
  (cells.filterMap (fun p => p.2)).length

/-- snp_cmd.py lines 342-343, get_snp_list: the names of the cells whose
value equals 1 (modelled as a list of names rather than the joined
string). -/
def get_snp_list (cells : List (String × Option ℚ)) : List String :=
  (cells.filter (fun p => p.2 == some 1)).map (fun p => p.1)

/-- One output row of the SNP analysis (snp_cmd.py lines 371-391).  The
fraction cells divide by a possibly zero compared count; pandas produces
NaN there while Rat division produces 0, a case no claim touches. -/
structure SnpResultRow where
  kit : String
  group : Option String
  ancestor : Option String
  country : Option String
  haplogroup : Option String
  shared_list : List String
  num_shared : ℚ
  num_comp_shared : Nat
  frac_shared : ℚ
  assum_list : List String
  num_assum : ℚ
  num_comp_assum : Nat
  frac_assum : ℚ
  all_list : List String
  num_all : ℚ
  num_comp_all : Nat
  frac_all : ℚ
deriving DecidableEq

/-- snp_cmd.py lines 342-369 for one candidate kit: the three metric tiers.
shared = float_and(R, K); assumed = float_or(float_and(R, isna(K)),
float_and(isna(R), K)); the all tier reuses float_or of the two matrices
for the name list but adds the counts (lines 365-368). -/
def snp_metrics (self_cells : List (String × Option ℚ)) (r : SnpKit)
    (kit_cells : List (String × Option ℚ)) : SnpResultRow :=
  let shared := combine_cells float_and self_cells kit_cells
  let assum := combine_cells
    (fun s k => float_or (float_and s (float_isna k)) (float_and (float_isna s) k))
    self_cells kit_cells
  let all_cells := combine_cells float_or shared assum
  let num_shared := cells_sum shared
  let num_comp_shared := cells_count shared
  let num_assum := cells_sum assum
  let num_comp_assum := cells_count assum
  { kit := r.kit
    group := r.group
    ancestor := r.ancestor
    country := r.country
    haplogroup := r.haplogroup
    shared_list := get_snp_list shared
    num_shared := num_shared
    num_comp_shared := num_comp_shared
    frac_shared := num_shared / num_comp_shared
    assum_list := get_snp_list assum
    num_assum := num_assum
    num_comp_assum := num_comp_assum
    frac_assum := num_assum / num_comp_assum
    all_list := get_snp_list all_cells
    num_all := num_shared + num_assum
    num_comp_all := num_comp_shared + num_comp_assum
    frac_all := (num_shared + num_assum) / ((num_comp_shared : ℚ) + (num_comp_assum : ℚ)) }

/-- snp_cmd.py analyze (lines 264-396).  The databases have already been
loaded: kits is mandatory (its absence exits before this point), snps? and
tree? are the possibly missing canonical-name and tree tables, for which
only a warning is printed before this code runs.  Steps, in source order:
the reference row lookup (line 291, KeyError when absent), its lineage
(line 292, AttributeError when tree? is None and the haplogroup cell is not
NA), the lineage filter (line 294), the age cutoff (lines 297-309; when
tree? is None, line 308 reads the never-assigned relevant_snps and raises
NameError), the canonical merge (lines 311-328), the reference extraction
and drop (lines 332-338, the caught KeyError becomes Exit(1)), the metric
rows (lines 342-391) and the descending stable sort on the all-shared count
(line 395). -/
def snp_analyze (kits : KitsSnpTable) (snps? : Option SnpsTable)
    (tree? : Option TreeTable) (self_kit : String) (snp_max_age : Int)
    (haplogroup : Option String) (haplogroup_max_diff : Option Int)
    (fuel : Nat) : Except PyError (List SnpResultRow) := do
  let self_row0 ← (match find_kit_row_snp kits.rows self_kit with
    | some r => Except.ok r
    | none => Except.error (PyError.keyError self_kit))
  let self_lineage ← get_haplogroup_lineage tree? fuel self_row0.haplogroup
  let kept ← filterE
    (fun r => kit_matches_lineage tree? self_lineage r.haplogroup
      haplogroup haplogroup_max_diff fuel)
    kits.rows
  let relevant ← (match tree? with
    | some tree => Except.ok (get_relevant_snps tree snp_max_age)
    | none => Except.error PyError.nameError)
  let table := kept.map (fun r =>
    (r, merge_equivalent_cols snps?
      (drop_irrelevant_cols kits.snpNames relevant r.calls)))
  let self_entry ← (match List.find? (fun rc => rc.1.kit == self_kit) table with
    | some rc => Except.ok rc
    | none => Except.error PyError.exitError)
  let remaining := table.filter (fun rc => rc.1.kit != self_kit)
  let rows := remaining.map (fun rc => snp_metrics self_entry.2 rc.1 rc.2)
  pure (List.insertionSort (fun r1 r2 => r2.num_all ≤ r1.num_all) rows)

/-! ## STR analysis pipeline (str_cmd.py, analyze, lines 199-333) -/

/-- One row of the STR kit table: the Kit Number index label, the four
metadata columns, and one locus cell per locus column (an ordered list of
repeat counts, or None for a no-call). -/
structure StrKit where
  kit : String
  group : Option String
  ancestor : Option String
  country : Option String
  haplogroup : Option String
  loci : List (Option (List Int))
deriving DecidableEq

/-- The STR kit table.  numLoci is the number of locus columns; the full
frame kits_df has 4 + numLoci columns (Group, Paternal Ancestor Name,
Country, Haplogroup and then the loci; the Kit Number is the index, not a
column). -/
structure KitsStrTable where
  numLoci : Nat
  rows : List StrKit
deriving DecidableEq

/-- kits_df.loc[kit] (str_cmd.py line 226): row lookup by index label. -/
def find_kit_row_str (rows : List StrKit) (kit : String) : Option StrKit :=
  List.find? (fun r => r.kit == kit) rows

/-- str_cmd.py line 244: total_num_loci = kits_df.shape[1].  kits_df still
carries its 4 metadata columns at this point, so the value is 4 plus the
number of locus columns. -/
def total_num_loci (kits : KitsStrTable) : Nat :=
  4 + kits.numLoci

/-- pandas Series.std with the default ddof = 1 squared: the sample
variance of the row terms.  pandas yields NaN for fewer than two terms; the
0 returned here for that case is never hit by a claim. -/
def sample_var (l : List ℚ) : ℚ :=
  if l.length ≤ 1 then 0
  else ((l.map (fun x => (x - l.sum / l.length) ^ 2)).sum) / ((l.length : ℚ) - 1)

/-- One output row of the STR analysis (str_cmd.py lines 314-328).
rel_dist_std_err_sq is the square of the standard error of line 306 (the
square determines the standard error, and stays rational).  The confidence
interval columns multiply the standard error by the fixed normal quantile
and are omitted, as is the final sort on the upper bound (line 332), which
only permutes the output rows. -/
structure StrResultRow where
  kit : String
  group : Option String
  ancestor : Option String
  country : Option String
  haplogroup : Option String
  num_comps : Nat
  abs_dist : Nat
  rel_dist : ℚ
  rel_dist_std_err_sq : ℚ
deriving DecidableEq

/-- str_cmd.py lines 246-312 for one candidate kit: the flattened distance
terms over all loci (line 290), their count, sum and mean, and the squared
standard error with the finite-population correction of lines 306-308,
whose population size is total_num_loci = kits_df.shape[1]. -/
def str_metrics (total : Nat) (self_loci : List (Option (List Int)))
    (r : StrKit) : StrResultRow :=
  let diffs := (List.zipWith get_diff self_loci r.loci).flatten
  let num_comps := diffs.length
  let terms : List ℚ := diffs.map (fun n => (n : ℚ))
  { kit := r.kit
    group := r.group
    ancestor := r.ancestor
    country := r.country
    haplogroup := r.haplogroup
    num_comps := num_comps
    abs_dist := diffs.sum
    rel_dist := (diffs.sum : ℚ) / (num_comps : ℚ)
    rel_dist_std_err_sq :=
      sample_var terms / (num_comps : ℚ)
        * (((total : ℚ) - (num_comps : ℚ)) / ((total : ℚ) - 1)) }

/-- str_cmd.py analyze (lines 199-333).  The kit table has been loaded
(its absence exits earlier); tree? is the possibly missing tree table, for
which only a warning is printed.  Steps, in source order: the reference row
lookup (line 226, KeyError when absent), its lineage (line 227,
AttributeError when tree? is None and the haplogroup cell is not NA), the
lineage filter (line 229), the reference extraction and drop (lines
234-240), total_num_loci (line 244) and the metric rows (lines 246-328). -/
def str_analyze (kits : KitsStrTable) (tree? : Option TreeTable)
    (self_kit : String) (haplogroup : Option String)
    (haplogroup_max_diff : Option Int) (fuel : Nat) :
    Except PyError (List StrResultRow) := do
  let self_row0 ← (match find_kit_row_str kits.rows self_kit with
    | some r => Except.ok r
    | none => Except.error (PyError.keyError self_kit))
  let self_lineage ← get_haplogroup_lineage tree? fuel self_row0.haplogroup
  let kept ← filterE
    (fun r => kit_matches_lineage tree? self_lineage r.haplogroup
      haplogroup haplogroup_max_diff fuel)
    kits.rows
  let self_row ← (match find_kit_row_str kept self_kit with
    | some r => Except.ok r
    | none => Except.error PyError.exitError)
  let remaining := kept.filter (fun r => r.kit != self_kit)
  let total := total_num_loci kits
  pure (remaining.map (fun r => str_metrics total self_row.loci r))

/-! ## Concrete tables used by the scenario theorems and witnesses -/

/-- The tree of the spec scenario: B is a child of A, and C and D are both
children of B; A is the root (NA parent cell). -/
def tree_scenario : TreeTable :=
  [⟨"A", none, none, [], []⟩,
   ⟨"B", some "A", none, [], []⟩,
   ⟨"C", some "B", none, [], []⟩,
   ⟨"D", some "B", none, [], []⟩]

/-- A tree whose single row is its own parent. -/
def tree_self_loop : TreeTable :=
  [⟨"A", some "A", none, [], []⟩]

/-- A rank function decreasing along the resolved parent links of
tree_scenario. -/
def rank_scenario : String → Nat :=
  fun s => if s = "C" then 2 else if s = "D" then 2 else if s = "B" then 1 else 0

/-- A two-row SNP kit table: reference S and candidate K, one SNP column. -/
def kits_snp_example : KitsSnpTable :=
  { snpNames := ["M1"]
    rows :=
      [⟨"S", none, none, none, none, [some true]⟩,
       ⟨"K", none, none, none, none, [some true]⟩] }

/-- An SNP kit table whose reference row has a non-NA haplogroup cell. -/
def kits_snp_hg_example : KitsSnpTable :=
  { snpNames := []
    rows := [⟨"S", none, none, none, some "R1", []⟩] }

/-- A two-row STR kit table with two locus columns: reference S with
values [10] and [12], candidate K with values [11] and [15]. -/
def kits_str_example : KitsStrTable :=
  { numLoci := 2
    rows :=
      [⟨"S", none, none, none, none, [some [10], some [12]]⟩,
       ⟨"K", none, none, none, none, [some [11], some [15]]⟩] }

/-- An STR kit table whose reference row has a non-NA haplogroup cell. -/
def kits_str_hg_example : KitsStrTable :=
  { numLoci := 0
    rows := [⟨"S", none, none, none, some "R1", []⟩] }

/-- The single output row of snp_analyze on kits_snp_example (the lone SNP
column is dropped by the age cutoff against the empty tree, so every
metric is empty or zero). -/
def snp_row_example : SnpResultRow :=
  ⟨"K", none, none, none, none, [], 0, 0, 0, [], 0, 0, 0, [], 0, 0, 0⟩

/-- The single output row of str_analyze on kits_str_example. -/
def str_row_example : StrResultRow :=
  ⟨"K", none, none, none, none, 2, 4, 2, 4/5⟩

/-! ## Helper lemmas -/

/-- Inverting one monadic bind of a successful Except computation. -/
theorem except_bind_ok {ε α β : Type} {e : Except ε α} {f : α → Except ε β}
    {b : β} (h : e >>= f = Except.ok b) :
    ∃ a, e = Except.ok a ∧ f a = Except.ok b := by
  cases e with
  | error err => simp [Bind.bind, Except.bind] at h
  | ok a => exact ⟨a, rfl, by simpa [Bind.bind, Except.bind] using h⟩

/-- A successful lookupTree result comes from a row of the table whose id
is the looked-up key. -/
theorem lookupTree_mem {tree : TreeTable} {h : String} {v : Option String}
    (hl : lookupTree tree h = some v) :
    ∃ e ∈ tree, e.id = h ∧ e.parent = v := by
  unfold lookupTree at hl
  cases hf : List.find? (fun r => r.id == h) tree with
  | none => rw [hf] at hl; cases hl
  | some e =>
    rw [hf] at hl
    have hmem := List.mem_of_find?_eq_some hf
    have hid := List.find?_some hf
    exact ⟨e, hmem, by simpa using hid, by simpa using hl⟩

/-- On the self-loop tree the lineage walk consumes any amount of fuel. -/
theorem self_loop_no_fuel (fuel : Nat) :
    get_haplogroup_lineage (some tree_self_loop) fuel (some "A")
      = Except.error PyError.fuelExhausted := by
  induction fuel with
  | zero => rfl
  | succ n ih =>
    have hl : lookupTree tree_self_loop "A" = some (some "A") := rfl
    simp [get_haplogroup_lineage, hl, ih, Except.map]

/-! ## Claim theorems -/

/-- C1 counterexample: on the code, OR(unknown, unknown) is false (0.0),
not unknown, because float_or fills both unknowns with 0 before combining. -/
theorem c1_or_unknown_counterexample :
    float_or none none = some 0 ∧ float_or none none ≠ none := by
  constructor
  · norm_num [float_or, float_and, float_not, fillna]
  · norm_num [float_or, float_and, float_not, fillna]
    exact fun h => Option.noConfusion h

/-- C1 (amended): in the tri-state call algebra with true = 1, false = 0,
unknown = NaN, AND(true, unknown) is distinguishable from AND(true, false),
OR(true, unknown) equals true, and OR(unknown, unknown) equals false (the
fillna(0) step of float_or treats both unknowns as false). -/
theorem c1_snp_algebra_amended :
    float_and (some 1) none ≠ float_and (some 1) (some 0)
      ∧ float_or (some 1) none = some 1
      ∧ float_or none none = some 0 := by
  refine ⟨fun h => Option.noConfusion h, ?_, ?_⟩
  · norm_num [float_or, float_and, float_not, fillna]
  · norm_num [float_or, float_and, float_not, fillna]

/-- C6 counterexample: on the scenario tree (B child of A; C and D children
of B), the common lineage of lineage(C) and lineage(D) is not [B, A]. -/
theorem c6_common_lineage_counterexample :
    get_haplogroup_lineage (some tree_scenario) 10 (some "C")
        = Except.ok ["C", "B", "A"]
      ∧ get_haplogroup_lineage (some tree_scenario) 10 (some "D")
        = Except.ok ["D", "B", "A"]
      ∧ get_common_lineage ["C", "B", "A"] ["D", "B", "A"] ≠ ["B", "A"] := by
  refine ⟨by rfl, by rfl, by decide⟩

/-- C6 (amended): in the scenario tree, lineage(C) = [C, B, A] and the
common lineage of lineage(C) and lineage(D) is [A, B], ordered from the
root end (get_common_lineage collects the shared prefix of the reversed
lineages root-first). -/
theorem c6_lineage_scenario_amended :
    get_haplogroup_lineage (some tree_scenario) 10 (some "C")
        = Except.ok ["C", "B", "A"]
      ∧ get_haplogroup_lineage (some tree_scenario) 10 (some "D")
        = Except.ok ["D", "B", "A"]
      ∧ get_common_lineage ["C", "B", "A"] ["D", "B", "A"] = ["A", "B"] := by
  refine ⟨by rfl, by rfl, by decide⟩

/-- C7 counterexample: the leftover penalty is capped: for the unpaired
boundary position 1 of [10, 3000] the neighbour distance is 2990, yet the
code contributes 1 + 1000 = 1001, not 1 + 2990. -/
theorem c7_leftover_penalty_counterexample :
    spec_neighbor_min [10, 3000] 1 = some 2990
      ∧ leftover_penalty [10, 3000] 1 = 1001
      ∧ (1001 : Nat) ≠ 1 + 2990 := by
  refine ⟨by decide, by decide, by decide⟩

/-- C7 (amended): every unpaired position contributes penalty 1 + the
minimum of 1000 and the absolute differences to its existing neighbours in
its own list (a boundary position uses only its one neighbour, a position
with no neighbour at all gets 1 + 1000); this is 1 + the plain neighbour
minimum exactly when that minimum does not exceed the 1000 cap. -/
theorem c7_leftover_penalty_amended (l : List Int) (i : Nat) :
    leftover_penalty l i
      = 1 + (match spec_neighbor_min l i with
             | none => 1000
             | some m => min 1000 m) := by
  by_cases h1 : 0 < i <;> by_cases h2 : i < l.length - 1 <;>
    simp [leftover_penalty, spec_neighbor_min, h1, h2, Nat.min_assoc]

/-- C3: with the tree table absent (tree_df is None), both analyze
commands crash instead of completing: the first tree_df.loc call inside
get_haplogroup_lineage raises AttributeError as soon as a haplogroup cell
is not NA (and snp_cmd would raise NameError at the unbound relevant_snps
even otherwise). -/
theorem c3_tree_absent_crash :
    snp_analyze kits_snp_hg_example none none "S" 3500 none none 5
        = Except.error PyError.attributeError
      ∧ str_analyze kits_str_hg_example none "S" none none 5
        = Except.error PyError.attributeError := by
  refine ⟨by rfl, by rfl⟩

set_option maxHeartbeats 1000000 in
/-- C8: the finite-population correction of the STR standard error uses
total_num_loci = kits_df.shape[1] = 4 + number of loci (the four metadata
columns are counted as loci).  On a table with 2 locus columns and a
candidate compared at both (terms 1 and 3), the code reports squared
standard error sample_var/2 * (6-2)/(6-1) = 4/5, whereas the claimed
formula with totalLoci = 2 gives sample_var/2 * (2-2)/(2-1) = 0. -/
theorem c8_fpc_uses_table_width :
    str_analyze kits_str_example (some []) "S" none none 5
        = Except.ok [⟨"K", none, none, none, none, 2, 4, 2, 4/5⟩]
      ∧ sample_var [(1 : ℚ), 3] / 2 * (((2 : ℚ) - 2) / ((2 : ℚ) - 1)) = 0
      ∧ ((4 : ℚ) / 5) ≠ 0 := by
  refine ⟨?_, by norm_num, by norm_num⟩
  simp [str_analyze, find_kit_row_str, List.find?, filterE, kit_matches_lineage,
    get_haplogroup_lineage, get_common_lineage, total_num_loci, str_metrics,
    get_diff, all_pair_diffs, combinations, pair_diff, get_comb_diff, unpaired,
    get_val_diff, min_by_key, list_min, sample_var, Bind.bind, Except.bind,
    Except.map, pure, Except.pure, kits_str_example, List.range_succ,
    List.range_zero, leftover_penalty, List.singleton]
  norm_num

/-- C2 counterexample: on a tree whose row A names itself as parent, the
lineage walk never terminates (the Python while loop runs forever: A is
not NA and its lookup always succeeds). -/
theorem c2_self_loop_counterexample : ¬ lineage_terminates tree_self_loop "A" := by
  rintro ⟨fuel, l, h⟩
  rw [self_loop_no_fuel fuel] at h
  cases h

/-- C2 (amended): the walk terminates, returning the collected partial
list without failure, for every tree table whose resolved parent links
admit a strictly decreasing rank (equivalently, whose parent chains are
acyclic) -- it stops when a parent id is missing from the table or NA.  A
self-referential id, by contrast, makes the walk loop forever. -/
theorem c2_lineage_terminates_amended (tree : TreeTable) (r : String → Nat)
    (hr : ∀ e ∈ tree, ∀ p, e.parent = some p → r p < r e.id) (h : String) :
    ∃ l, get_haplogroup_lineage (some tree) (r h + 1) (some h) = Except.ok l := by
  have key : ∀ fuel hg, r hg < fuel →
      ∃ l, get_haplogroup_lineage (some tree) fuel (some hg) = Except.ok l := by
    intro fuel
    induction fuel with
    | zero => intro hg hh; omega
    | succ n ih =>
      intro hg _
      cases hl : lookupTree tree hg with
      | none => exact ⟨[hg], by simp [get_haplogroup_lineage, hl]⟩
      | some p =>
        cases p with
        | none =>
          refine ⟨[hg], ?_⟩
          have hnone : get_haplogroup_lineage (some tree) n none = Except.ok [] := by
            cases n <;> rfl
          simp [get_haplogroup_lineage, hl, hnone, Except.map]
        | some q =>
          obtain ⟨e, he, hid, hp⟩ := lookupTree_mem hl
          have hq : r q < r hg := by
            have := hr e he q hp
            rwa [hid] at this
          obtain ⟨l, hlq⟩ := ih q (by omega)
          exact ⟨hg :: l, by simp [get_haplogroup_lineage, hl, hlq, Except.map]⟩
  exact key (r h + 1) h (by omega)

/-- C2 witness: on the scenario chain C to B to A with the explicit rank,
the walk from C terminates. -/
theorem c2_lineage_terminates_witness :
    ∃ l, get_haplogroup_lineage (some tree_scenario) 3 (some "C") = Except.ok l := by
  have hr : ∀ e ∈ tree_scenario, ∀ p, e.parent = some p →
      rank_scenario p < rank_scenario e.id := by
    intro e he p hp
    simp only [tree_scenario, List.mem_cons, List.not_mem_nil, or_false] at he
    rcases he with rfl | rfl | rfl | rfl
    · exact Option.noConfusion hp
    all_goals
      injection hp with hpe
      subst hpe
      decide
  exact c2_lineage_terminates_amended tree_scenario rank_scenario hr "C"

/-- C9: the lineage filter accepts a kit exactly when (no haplogroup
filter is given, or the given haplogroup occurs in the kit lineage) and
(no max depth difference is given, or the absolute difference of the two
depths below the common ancestor is at most the bound); with both
parameters absent every kit is accepted (the right side is vacuous). -/
theorem c9_kit_matches_lineage_iff (tree? : Option TreeTable)
    (a_lineage : List String) (b_hg : Option String)
    (haplogroup : Option String) (haplogroup_max_diff : Option Int)
    (fuel : Nat) (b_lineage : List String)
    (hl : get_haplogroup_lineage tree? fuel b_hg = Except.ok b_lineage) :
    (kit_matches_lineage tree? a_lineage b_hg haplogroup haplogroup_max_diff fuel
        = Except.ok true)
      ↔ ((∀ hg, haplogroup = some hg → hg ∈ b_lineage)
         ∧ ∀ d, haplogroup_max_diff = some d →
             lineage_pos_diff a_lineage b_lineage ≤ d) := by
  unfold kit_matches_lineage
  rw [hl]
  simp only [Bind.bind, Except.bind]
  cases haplogroup with
  | none =>
    cases haplogroup_max_diff with
    | none => simp [pure, Except.pure]
    | some d =>
      by_cases hd : lineage_pos_diff a_lineage b_lineage > d <;>
        simp [hd, lineage_pos_diff, pure, Except.pure, -Int.natCast_natAbs] at *
  | some hg =>
    by_cases hmem : hg ∈ b_lineage
    · cases haplogroup_max_diff with
      | none => simp [hmem, List.elem_iff, pure, Except.pure]
      | some d =>
        by_cases hd : lineage_pos_diff a_lineage b_lineage > d <;>
          simp [hd, hmem, lineage_pos_diff, List.elem_iff, pure, Except.pure,
            -Int.natCast_natAbs] at *
    · simp [hmem, List.elem_iff, pure, Except.pure]

/-- C9 witness: on the scenario tree, the kit with haplogroup D passes the
filter for reference lineage [C, B, A], haplogroup filter B and maximum
depth difference 0. -/
theorem c9_kit_matches_lineage_iff_witness :
    (kit_matches_lineage (some tree_scenario) ["C", "B", "A"] (some "D")
        (some "B") (some 0) 5 = Except.ok true)
      ↔ ((∀ hg, (some "B" : Option String) = some hg → hg ∈ ["D", "B", "A"])
         ∧ ∀ d, (some 0 : Option Int) = some d →
             lineage_pos_diff ["C", "B", "A"] ["D", "B", "A"] ≤ d) :=
  c9_kit_matches_lineage_iff (some tree_scenario) ["C", "B", "A"] (some "D")
    (some "B") (some 0) 5 ["D", "B", "A"] (by rfl)

/-- C5: when the reference kit id is absent from the kit table, both
analyze commands abort at the very first step with the KeyError naming the
kit (raised by the kits_df.loc lookup, before anything else runs), and the
Except-valued run carries no output rows. -/
theorem c5_missing_kit_aborts :
    (∀ (kits : KitsSnpTable) (snps? : Option SnpsTable)
        (tree? : Option TreeTable) (self_kit : String) (snp_max_age : Int)
        (haplogroup : Option String) (haplogroup_max_diff : Option Int)
        (fuel : Nat), find_kit_row_snp kits.rows self_kit = none →
        snp_analyze kits snps? tree? self_kit snp_max_age haplogroup
            haplogroup_max_diff fuel
          = Except.error (PyError.keyError self_kit))
    ∧ (∀ (kits : KitsStrTable) (tree? : Option TreeTable) (self_kit : String)
        (haplogroup : Option String) (haplogroup_max_diff : Option Int)
        (fuel : Nat), find_kit_row_str kits.rows self_kit = none →
        str_analyze kits tree? self_kit haplogroup haplogroup_max_diff fuel
          = Except.error (PyError.keyError self_kit)) := by
  constructor
  · intro kits snps? tree? self_kit snp_max_age haplogroup haplogroup_max_diff
      fuel hfind
    unfold snp_analyze
    rw [hfind]
    rfl
  · intro kits tree? self_kit haplogroup haplogroup_max_diff fuel hfind
    unfold str_analyze
    rw [hfind]
    rfl

/-- C5 witness: on empty kit tables the run aborts with KeyError S. -/
theorem c5_missing_kit_aborts_witness :
    snp_analyze ⟨[], []⟩ none none "S" 3500 none none 1
        = Except.error (PyError.keyError "S")
      ∧ str_analyze ⟨0, []⟩ none "S" none none 1
        = Except.error (PyError.keyError "S") :=
  ⟨c5_missing_kit_aborts.1 ⟨[], []⟩ none none "S" 3500 none none 1 rfl,
   c5_missing_kit_aborts.2 ⟨0, []⟩ none "S" none none 1 rfl⟩

/-- C10: the reference kit row never appears in the output: both analyze
commands drop every row whose kit id equals the reference id before the
metrics are computed, so each output row belongs to a different kit. -/
theorem c10_reference_kit_excluded :
    (∀ (kits : KitsSnpTable) (snps? : Option SnpsTable)
        (tree? : Option TreeTable) (self_kit : String) (snp_max_age : Int)
        (haplogroup : Option String) (haplogroup_max_diff : Option Int)
        (fuel : Nat) (rows : List SnpResultRow),
        snp_analyze kits snps? tree? self_kit snp_max_age haplogroup
            haplogroup_max_diff fuel = Except.ok rows →
        ∀ row ∈ rows, row.kit ≠ self_kit)
    ∧ (∀ (kits : KitsStrTable) (tree? : Option TreeTable) (self_kit : String)
        (haplogroup : Option String) (haplogroup_max_diff : Option Int)
        (fuel : Nat) (rows : List StrResultRow),
        str_analyze kits tree? self_kit haplogroup haplogroup_max_diff fuel
          = Except.ok rows →
        ∀ row ∈ rows, row.kit ≠ self_kit) := by
  constructor
  · intro kits snps? tree? self_kit snp_max_age haplogroup haplogroup_max_diff
      fuel rows h
    unfold snp_analyze at h
    obtain ⟨r0, h0, h⟩ := except_bind_ok h
    obtain ⟨lin, h1, h⟩ := except_bind_ok h
    obtain ⟨kept, h2, h⟩ := except_bind_ok h
    obtain ⟨relevant, h3, h⟩ := except_bind_ok h
    obtain ⟨se, h4, h⟩ := except_bind_ok h
    replace h := Except.ok.inj h
    subst h
    intro row hrow
    have hrow2 := (List.perm_insertionSort _ _).mem_iff.mp hrow
    obtain ⟨rc, hrc, rfl⟩ := List.mem_map.mp hrow2
    have hne := (List.mem_filter.mp hrc).2
    exact bne_iff_ne.mp hne
  · intro kits tree? self_kit haplogroup haplogroup_max_diff fuel rows h
    unfold str_analyze at h
    obtain ⟨r0, h0, h⟩ := except_bind_ok h
    obtain ⟨lin, h1, h⟩ := except_bind_ok h
    obtain ⟨kept, h2, h⟩ := except_bind_ok h
    obtain ⟨sr, h3, h⟩ := except_bind_ok h
    replace h := Except.ok.inj h
    subst h
    intro row hrow
    obtain ⟨rc, hrc, rfl⟩ := List.mem_map.mp hrow
    have hne := (List.mem_filter.mp hrc).2
    exact bne_iff_ne.mp hne

set_option maxHeartbeats 1000000 in
/-- C10 witness: on the two-kit example tables with reference S, the lone
output row of each run is for kit K, different from S. -/
theorem c10_reference_kit_excluded_witness :
    snp_row_example.kit ≠ "S" ∧ str_row_example.kit ≠ "S" :=
  ⟨c10_reference_kit_excluded.1 kits_snp_example none (some []) "S" 3500 none
      none 5 [snp_row_example]
      (by
        simp [snp_analyze, find_kit_row_snp, List.find?, filterE,
          kit_matches_lineage, get_haplogroup_lineage, get_common_lineage,
          get_relevant_snps, drop_irrelevant_cols, merge_equivalent_cols,
          snp_metrics, combine_cells, cells_sum, cells_count, get_snp_list,
          Bind.bind, Except.bind, Except.map, pure, Except.pure,
          kits_snp_example, snp_row_example, List.insertionSort])
      snp_row_example (List.mem_singleton.mpr rfl),
   c10_reference_kit_excluded.2 kits_str_example (some []) "S" none none 5
      [str_row_example]
      (by
        simp [str_analyze, find_kit_row_str, List.find?, filterE,
          kit_matches_lineage, get_haplogroup_lineage, get_common_lineage,
          total_num_loci, str_metrics, get_diff, all_pair_diffs, combinations,
          pair_diff, get_comb_diff, unpaired, get_val_diff, min_by_key,
          list_min, sample_var, Bind.bind, Except.bind, Except.map, pure,
          Except.pure, kits_str_example, str_row_example, List.range_succ,
          List.range_zero, leftover_penalty, List.singleton]
        norm_num)
      str_row_example (List.mem_singleton.mpr rfl)⟩

/-! ## Combinatorial lemmas for the STR alignment -/

theorem combinations_length {α : Type} :
    ∀ (k : Nat) (l : List α) (c : List α), c ∈ combinations k l → c.length = k := by
  intro k l
  induction l generalizing k with
  | nil =>
    intro c hc
    cases k with
    | zero => simp [combinations] at hc; simp [hc]
    | succ n => simp [combinations] at hc
  | cons x xs ih =>
    intro c hc
    cases k with
    | zero => simp [combinations] at hc; simp [hc]
    | succ n =>
      simp only [combinations, List.mem_append, List.mem_map] at hc
      rcases hc with ⟨c2, hc2, rfl⟩ | hc
      · simp [ih n c2 hc2]
      · exact ih (n + 1) c hc

theorem combinations_ne_nil {α : Type} :
    ∀ (k : Nat) (l : List α), k ≤ l.length → combinations k l ≠ [] := by
  intro k l
  induction l generalizing k with
  | nil =>
    intro h
    cases k with
    | zero => simp [combinations]
    | succ n => simp at h
  | cons x xs ih =>
    intro h
    cases k with
    | zero => simp [combinations]
    | succ n =>
      have hn : n ≤ xs.length := by simpa using h
      have h1 := ih n hn
      simp only [combinations, ne_eq, List.append_eq_nil, List.map_eq_nil_iff]
      intro hcontra
      exact h1 hcontra.1

theorem mem_all_pair_diffs {a b : List Int} {d : List (Nat × Nat × Nat)} :
    d ∈ all_pair_diffs a b
      ↔ ∃ ac, ac ∈ combinations (min a.length b.length) a.enum
          ∧ ∃ bc, bc ∈ combinations (min a.length b.length) b.enum
              ∧ pair_diff ac bc = d := by
  simp [all_pair_diffs, List.mem_flatten, List.mem_map]

theorem all_pair_diffs_ne_nil (a b : List Int) : all_pair_diffs a b ≠ [] := by
  obtain ⟨ac, hac⟩ := List.exists_mem_of_ne_nil _
    (combinations_ne_nil (min a.length b.length) a.enum
      (by simp [List.enum_length]))
  obtain ⟨bc, hbc⟩ := List.exists_mem_of_ne_nil _
    (combinations_ne_nil (min a.length b.length) b.enum
      (by simp [List.enum_length]))
  exact List.ne_nil_of_mem (mem_all_pair_diffs.mpr ⟨ac, hac, bc, hbc, rfl⟩)

theorem get_val_diff_comm (x y : Int) : get_val_diff x y = get_val_diff y x := by
  unfold get_val_diff
  by_cases hx : x = 0 <;> by_cases hy : y = 0 <;> simp [hx, hy] <;> omega

theorem pair_diff_thirds_swap :
    ∀ (ac bc : List (Nat × Int)),
      (pair_diff bc ac).map (fun t => t.2.2) = (pair_diff ac bc).map (fun t => t.2.2) := by
  intro ac
  induction ac with
  | nil => intro bc; cases bc <;> simp [pair_diff]
  | cons p ps ih =>
    intro bc
    cases bc with
    | nil => simp [pair_diff]
    | cons q qs =>
      have := ih qs
      simp only [pair_diff, List.zip_cons_cons, List.map_cons, List.map_map] at *
      rw [get_val_diff_comm q.2 p.2, this]

theorem pair_diff_fsts :
    ∀ (ac bc : List (Nat × Int)), ac.length = bc.length →
      (pair_diff ac bc).map (fun t => t.1) = ac.map (fun p => p.1) := by
  intro ac
  induction ac with
  | nil => intro bc h; simp [pair_diff]
  | cons p ps ih =>
    intro bc h
    cases bc with
    | nil => simp at h
    | cons q qs =>
      have hlen : ps.length = qs.length := by simpa using h
      have := ih qs hlen
      simp only [pair_diff, List.zip_cons_cons, List.map_cons, List.map_map] at *
      exact congrArg (List.cons p.1) this

theorem pair_diff_snds :
    ∀ (ac bc : List (Nat × Int)), ac.length = bc.length →
      (pair_diff ac bc).map (fun t => t.2.1) = bc.map (fun p => p.1) := by
  intro ac
  induction ac with
  | nil =>
    intro bc h
    have : bc = [] := by cases bc with | nil => rfl | cons q qs => simp at h
    simp [this, pair_diff]
  | cons p ps ih =>
    intro bc h
    cases bc with
    | nil => simp at h
    | cons q qs =>
      have hlen : ps.length = qs.length := by simpa using h
      have := ih qs hlen
      simp only [pair_diff, List.zip_cons_cons, List.map_cons, List.map_map] at *
      exact congrArg (List.cons q.1) this

theorem get_comb_diff_sum_swap (a b : List Int) (ac bc : List (Nat × Int))
    (h : ac.length = bc.length) :
    (get_comb_diff b a (pair_diff bc ac)).sum
      = (get_comb_diff a b (pair_diff ac bc)).sum := by
  unfold get_comb_diff
  rw [List.sum_append, List.sum_append, List.sum_append, List.sum_append]
  rw [pair_diff_thirds_swap ac bc]
  rw [pair_diff_fsts ac bc h, pair_diff_snds ac bc h,
    pair_diff_fsts bc ac h.symm, pair_diff_snds bc ac h.symm]
  omega

theorem foldl_min_le_init : ∀ (xs : List Nat) (a : Nat), xs.foldl min a ≤ a := by
  intro xs
  induction xs with
  | nil => intro a; simp
  | cons x t ih =>
    intro a
    calc (x :: t).foldl min a = t.foldl min (min a x) := rfl
      _ ≤ min a x := ih (min a x)
      _ ≤ a := Nat.min_le_left a x

theorem foldl_min_le_mem :
    ∀ (xs : List Nat) (a x : Nat), x ∈ xs → xs.foldl min a ≤ x := by
  intro xs
  induction xs with
  | nil => intro a x hx; cases hx
  | cons y t ih =>
    intro a x hx
    rcases List.mem_cons.mp hx with rfl | hx
    · calc (x :: t).foldl min a = t.foldl min (min a x) := rfl
        _ ≤ min a x := foldl_min_le_init t (min a x)
        _ ≤ x := Nat.min_le_right a x
    · exact ih (min a y) x hx

theorem foldl_min_mem_or :
    ∀ (xs : List Nat) (a : Nat), xs.foldl min a = a ∨ xs.foldl min a ∈ xs := by
  intro xs
  induction xs with
  | nil => intro a; exact Or.inl rfl
  | cons y t ih =>
    intro a
    rcases ih (min a y) with h | h
    · rcases Nat.le_total a y with hay | hya
      · refine Or.inl ?_
        rw [show (y :: t).foldl min a = t.foldl min (min a y) from rfl, h,
          Nat.min_eq_left hay]
      · refine Or.inr (List.mem_cons.mpr (Or.inl ?_))
        rw [show (y :: t).foldl min a = t.foldl min (min a y) from rfl, h,
          Nat.min_eq_right hya]
    · exact Or.inr (List.mem_cons.mpr (Or.inr h))

theorem list_min_le_of_mem {l : List Nat} {x : Nat} (hx : x ∈ l) :
    list_min l ≤ x := by
  cases l with
  | nil => cases hx
  | cons y t =>
    rcases List.mem_cons.mp hx with rfl | hx
    · exact foldl_min_le_init t x
    · exact foldl_min_le_mem t y x hx

theorem list_min_mem {l : List Nat} (h : l ≠ []) : list_min l ∈ l := by
  cases l with
  | nil => exact absurd rfl h
  | cons y t =>
    rcases foldl_min_mem_or t y with h2 | h2
    · exact List.mem_cons.mpr (Or.inl h2)
    · exact List.mem_cons.mpr (Or.inr h2)

theorem fold_argmin (f : List (Nat × Nat × Nat) → Nat) :
    ∀ (ds : List (List (Nat × Nat × Nat))) (d : List (Nat × Nat × Nat)),
      f (ds.foldl (fun best e => if f e < f best then e else best) d)
        = (ds.map f).foldl min (f d) := by
  intro ds
  induction ds with
  | nil => intro d; rfl
  | cons e es ih =>
    intro d
    simp only [List.foldl, List.map]
    rw [ih]
    congr 1
    by_cases h : f e < f d
    · simp only [if_pos h]
      omega
    · simp only [if_neg h]
      omega

theorem get_diff_sum_eq_list_min (a b : List Int) :
    (get_diff (some a) (some b)).sum = list_min (pair_totals a b) := by
  show (get_comb_diff a b (min_by_key (fun diff => (get_comb_diff a b diff).sum)
      (all_pair_diffs a b))).sum
    = list_min ((all_pair_diffs a b).map (fun diff => (get_comb_diff a b diff).sum))
  cases hL : all_pair_diffs a b with
  | nil => exact absurd hL (all_pair_diffs_ne_nil a b)
  | cons d ds =>
    simp only [min_by_key, list_min, List.map]
    exact fold_argmin (fun diff => (get_comb_diff a b diff).sum) ds d

theorem pair_totals_min_le (a b : List Int) :
    list_min (pair_totals a b) ≤ list_min (pair_totals b a) := by
  have hne : pair_totals b a ≠ [] := by
    unfold pair_totals
    simp only [ne_eq, List.map_eq_nil_iff]
    exact all_pair_diffs_ne_nil b a
  have hmem := list_min_mem hne
  unfold pair_totals at hmem
  rcases List.mem_map.mp hmem with ⟨d, hd, hsum⟩
  rcases mem_all_pair_diffs.mp hd with ⟨bcomb, hbc, acomb, hac, hdp⟩
  have l1 := combinations_length (min b.length a.length) b.enum bcomb hbc
  have l2 := combinations_length (min b.length a.length) a.enum acomb hac
  have hsw := get_comb_diff_sum_swap a b acomb bcomb (l2.trans l1.symm)
  have hac2 : acomb ∈ combinations (min a.length b.length) a.enum := by
    rwa [Nat.min_comm] at hac
  have hbc2 : bcomb ∈ combinations (min a.length b.length) b.enum := by
    rwa [Nat.min_comm] at hbc
  have hmem2 : (get_comb_diff a b (pair_diff acomb bcomb)).sum ∈ pair_totals a b :=
    List.mem_map.mpr ⟨pair_diff acomb bcomb,
      mem_all_pair_diffs.mpr ⟨acomb, hac2, bcomb, hbc2, rfl⟩, rfl⟩
  calc list_min (pair_totals a b)
      ≤ (get_comb_diff a b (pair_diff acomb bcomb)).sum := list_min_le_of_mem hmem2
    _ = (get_comb_diff b a (pair_diff bcomb acomb)).sum := hsw.symm
    _ = (get_comb_diff b a d).sum := by rw [hdp]
    _ = list_min (pair_totals b a) := hsum

/-- C4 (amended): the minimum total distance chosen by the alignment is
invariant under exchanging the reference and candidate lists; it is not,
in general, invariant under permuting the order of the values inside one
list, because only order-preserving pairings (combinations of both sides)
are enumerated. -/
theorem c4_get_diff_swap_amended (a? b? : Option (List Int)) :
    (get_diff a? b?).sum = (get_diff b? a?).sum := by
  match a?, b? with
  | none, none => rfl
  | none, some b => rfl
  | some a, none => rfl
  | some a, some b =>
    rw [get_diff_sum_eq_list_min, get_diff_sum_eq_list_min]
    exact Nat.le_antisymm (pair_totals_min_le a b) (pair_totals_min_le b a)

/-- C4 counterexample: [2, 1] is a permutation of [1, 2], yet the minimum
total distance of the alignment against [1, 2] changes from 0 to 2 when
the first list is so permuted (only the order-preserving pairing is
enumerated). -/
theorem c4_permutation_counterexample :
    List.Perm ([2, 1] : List Int) [1, 2]
      ∧ (get_diff (some ([1, 2] : List Int)) (some [1, 2])).sum = 0
      ∧ (get_diff (some ([2, 1] : List Int)) (some [1, 2])).sum = 2 := by
  refine ⟨by decide, by decide, by decide⟩
